import Mathlib

/-!
Shallow embedding of the STM32 hardware RNG driver
(drivers/crypto/stm32_rng.c) and verification of its specification.

The driver talks to the peripheral through three memory-mapped 32-bit
registers (control at 0x00, status at 0x04, data at 0x08).  We model the
hardware environment as an oracle: two functions giving the value returned
by the n-th read of the status register and the n-th read of the data
register.  Each driver operation is translated into a pure Lean function
that returns its C return value together with a full trace of the MMIO and
clock events it performed, so that frame and ordering properties can be
stated about the trace.
-/

namespace Stm32Rng

/-- RNG_CR_RNGEN, BIT(2) of the control register: generator enable. -/
def RNG_CR_RNGEN : Nat := 2 ^ 2

/-- RNG_SR_SEIS, BIT(6) of the status register: seed error. -/
def RNG_SR_SEIS : Nat := 2 ^ 6

/-- RNG_SR_CEIS, BIT(5) of the status register: clock error. -/
def RNG_SR_CEIS : Nat := 2 ^ 5

/-- RNG_SR_DRDY, BIT(0) of the status register: data ready. -/
def RNG_SR_DRDY : Nat := 2 ^ 0

/-- RNG_TIMEOUT: iteration budget of the busy-wait loop. -/
def RNG_TIMEOUT : Nat := 500

/-- Linux errno EIO, returned (negated) by stm32_rng_read. -/
def eioVal : Nat := 5

/-- The C expression `~(RNG_SR_SEIS | RNG_SR_CEIS)` evaluated on u32:
all 32 bits set except the two error-latch bits. -/
def RNG_SR_ERRMASK : Nat := 0xFFFFFFFF ^^^ (RNG_SR_SEIS ||| RNG_SR_CEIS)

/-- One observable action of the driver: clock gating, an MMIO access to
the control / status / data registers, or a 4-byte store into the caller
buffer at a given byte offset. -/
inductive Ev where
  | clkEnable : Ev
  | clkDisable : Ev
  | readCR : Nat → Ev
  | writeCR : Nat → Ev
  | readSR : Nat → Ev
  | writeSR : Nat → Ev
  | readDR : Nat → Ev
  | bufWrite : Nat → Nat → Ev
deriving DecidableEq

/-- The hardware oracle: `sr n` is the value produced by the n-th read of
the status register during the call, `dr n` the value produced by the n-th
read of the data register. -/
structure Hw where
  sr : Nat → Nat
  dr : Nat → Nat

/-- The C do-while busy-wait

    do { cpu_relax(); sr = readl(SR); } while (!sr && --timeout);

`nsr` counts status-register reads already performed (oracle index).
Returns the final `sr` value, the new read count, and the reads performed.
The C counter is an unsigned pre-decrement; the driver only ever enters the
loop with `timeout = RNG_TIMEOUT = 500`, which the `t + 1` branch models
exactly (continue while the value read is zero and the decremented counter
is nonzero). -/
def rng_wait (hw : Hw) (nsr : Nat) : Nat → Nat × Nat × List Ev
  | 0 => (hw.sr nsr, nsr + 1, [Ev.readSR (hw.sr nsr)])
  | t + 1 =>
    let sr := hw.sr nsr
    if sr = 0 ∧ t ≠ 0 then
      let r := rng_wait hw (nsr + 1) t
      (r.1, r.2.1, Ev.readSR sr :: r.2.2)
    else (sr, nsr + 1, [Ev.readSR sr])

/-- One status poll of the drain loop body:

    sr = readl(SR);
    if (!sr && wait) { timeout = RNG_TIMEOUT; do ... while (!sr && --timeout); }

Returns the deciding status snapshot, the new status-read count and the
status reads performed. -/
def rng_poll (hw : Hw) (w : Bool) (nsr : Nat) : Nat × Nat × List Ev :=
  let sr0 := hw.sr nsr
  if sr0 = 0 ∧ w then
    let r := rng_wait hw (nsr + 1) RNG_TIMEOUT
    (r.1, r.2.1, Ev.readSR sr0 :: r.2.2)
  else (sr0, nsr + 1, [Ev.readSR sr0])

/-- Result of the drain loop: accumulated return value (bytes written),
final status- and data-read counts, the event trace, the list of
(deciding status snapshot, data value) pairs, one per data-register read,
and the list of (byte offset, word) buffer writes. -/
structure LoopOut where
  retval : Nat
  nsr : Nat
  ndr : Nat
  evs : List Ev
  drObs : List (Nat × Nat)
  writes : List (Nat × Nat)
deriving DecidableEq

/-- The drain loop of stm32_rng_read:

    while (max > sizeof(u32)) {
      sr = readl(SR);
      if (!sr && wait) { ...bounded busy-wait... }
      if (WARN_ON(sr & (RNG_SR_SEIS | RNG_SR_CEIS))) break;
      if (!sr) break;
      *(u32 *)data = readl(DR);
      retval += 4; data += 4; max -= 4;
    }

`m` is the remaining byte count `max` (the loop body runs only while it is
at least 5, i.e. strictly greater than sizeof(u32) = 4), `off` the current
byte offset into the caller buffer, `rv` the accumulated `retval`.
WARN_ON only logs; its value is the tested condition. -/
def rng_loop (hw : Hw) (w : Bool) : Nat → Nat → Nat → Nat → Nat → LoopOut
  | m + 5, off, nsr, ndr, rv =>
    let p := rng_poll hw w nsr
    if p.1 &&& (RNG_SR_SEIS ||| RNG_SR_CEIS) ≠ 0 then
      { retval := rv, nsr := p.2.1, ndr := ndr, evs := p.2.2,
        drObs := [], writes := [] }
    else if p.1 = 0 then
      { retval := rv, nsr := p.2.1, ndr := ndr, evs := p.2.2,
        drObs := [], writes := [] }
    else
      let rest := rng_loop hw w (m + 1) (off + 4) p.2.1 (ndr + 1) (rv + 4)
      { retval := rest.retval, nsr := rest.nsr, ndr := rest.ndr,
        evs := p.2.2 ++ (Ev.readDR (hw.dr ndr) :: Ev.bufWrite off (hw.dr ndr) :: rest.evs),
        drObs := (p.1, hw.dr ndr) :: rest.drObs,
        writes := (off, hw.dr ndr) :: rest.writes }
  | _, _, nsr, ndr, rv =>
    { retval := rv, nsr := nsr, ndr := ndr, evs := [], drObs := [], writes := [] }

/-- Result of a whole stm32_rng_read call: the C `int` return value, the
final `retval` accumulator, the complete event trace, and the drain-loop
observations. -/
structure FillOut where
  ret : Int
  retval : Nat
  evs : List Ev
  drObs : List (Nat × Nat)
  writes : List (Nat × Nat)
  nsr : Nat
  ndr : Nat
deriving DecidableEq

/-- stm32_rng_read.  `cr0` is the value the control register holds when the
call reads it (the hardware does not change CR on its own, so a single
value models the read).  `m` is the `max` argument (buffer size in bytes),
`w` the `wait` flag.  Prologue, epilogue and result policy:

    clk_enable(priv->clk);
    cr = readl(priv->base + RNG_CR);
    writel(cr | RNG_CR_RNGEN, priv->base + RNG_CR);
    ...drain loop...
    writel(cr, priv->base + RNG_CR);
    clk_disable(priv->clk);
    return retval || !wait ? retval : -EIO;
-/
def stm32_rng_read (hw : Hw) (cr0 : Nat) (m : Nat) (w : Bool) : FillOut :=
  { ret := if (rng_loop hw w m 0 0 0 0).retval ≠ 0 ∨ w = false
      then ((rng_loop hw w m 0 0 0 0).retval : Int) else -(eioVal : Int),
    retval := (rng_loop hw w m 0 0 0 0).retval,
    evs := Ev.clkEnable :: Ev.readCR cr0 :: Ev.writeCR (cr0 ||| RNG_CR_RNGEN) ::
      ((rng_loop hw w m 0 0 0 0).evs ++ [Ev.writeCR cr0, Ev.clkDisable]),
    drObs := (rng_loop hw w m 0 0 0 0).drObs,
    writes := (rng_loop hw w m 0 0 0 0).writes,
    nsr := (rng_loop hw w m 0 0 0 0).nsr,
    ndr := (rng_loop hw w m 0 0 0 0).ndr }

/-- Result of stm32_rng_init: the C return value, the clock prepare count
after the call, and the register accesses performed. -/
structure InitOut where
  ret : Int
  clkPrepares : Nat
  regEvs : List Ev
deriving DecidableEq

/-- stm32_rng_init.  `prepRet` is the value returned by clk_prepare
(0 on success), `sr0` the value the status register read returns, `n` the
clock prepare count before the call (clk_prepare increments it).  On
clk_prepare failure the error is returned before any register access; on
success the error latch bits are cleared:

    sr = readl(priv->base + RNG_SR);
    sr &= ~(RNG_SR_SEIS | RNG_SR_CEIS);
    writel(sr, priv->base + RNG_SR);
-/
def stm32_rng_init (prepRet : Int) (sr0 : Nat) (n : Nat) : InitOut :=
  if prepRet ≠ 0 then { ret := prepRet, clkPrepares := n, regEvs := [] }
  else
    { ret := 0, clkPrepares := n + 1,
      regEvs := [Ev.readSR sr0, Ev.writeSR (sr0 &&& RNG_SR_ERRMASK)] }

/-- stm32_rng_cleanup: clk_unprepare decrements the clock prepare count. -/
def stm32_rng_cleanup (n : Nat) : Nat := n - 1

/-- A peripheral that never reports anything: every status read is 0. -/
def hwNever : Hw := { sr := fun _ => 0, dr := fun _ => 0 }

/-- A peripheral with data ready on every poll; the n-th data word is
1000 + n. -/
def hwReady : Hw := { sr := fun _ => RNG_SR_DRDY, dr := fun n => 1000 + n }

/-- A peripheral that reports data ready for two status reads and then
latches a seed error. -/
def hwSeedErr : Hw :=
  { sr := fun n => if n < 2 then RNG_SR_DRDY else RNG_SR_SEIS,
    dr := fun n => 1000 + n }

/-- A peripheral whose status register reads 2: a nonzero value with the
data-ready bit (bit 0) clear and neither error bit set. -/
def hwBitOne : Hw := { sr := fun _ => 2, dr := fun _ => 7 }

/-- The offsets of `n` consecutive word writes starting at byte offset
`off`: off, off + 4, off + 8, ... -/
def offsets : Nat → Nat → List Nat
  | _, 0 => []
  | off, n + 1 => off :: offsets (off + 4) n

theorem offsets_eq_range (n : Nat) : ∀ off,
    offsets off n = (List.range n).map (fun i => off + 4 * i) := by
  induction n with
  | zero => intro off; rfl
  | succ n ih =>
    intro off
    rw [List.range_succ_eq_map]
    simp only [offsets, List.map_cons, List.map_map]
    refine congrArg₂ List.cons (by omega) ?_
    rw [ih (off + 4)]
    exact List.map_congr_left fun a _ => by simp [Function.comp]; omega

theorem rng_wait_evs (hw : Hw) : ∀ t nsr, ∀ e ∈ (rng_wait hw nsr t).2.2,
    ∃ v, e = Ev.readSR v := by
  intro t
  induction t with
  | zero =>
    intro nsr e he
    simp only [rng_wait, List.mem_singleton] at he
    exact ⟨_, he⟩
  | succ t ih =>
    intro nsr e he
    by_cases h : hw.sr nsr = 0 ∧ t ≠ 0
    · simp only [rng_wait, if_pos h, List.mem_cons] at he
      rcases he with he | he
      · exact ⟨_, he⟩
      · exact ih (nsr + 1) e he
    · simp only [rng_wait, if_neg h, List.mem_singleton] at he
      exact ⟨_, he⟩

theorem rng_wait_nsr_le (hw : Hw) : ∀ t nsr, 1 ≤ t →
    (rng_wait hw nsr t).2.1 ≤ nsr + t := by
  intro t
  induction t with
  | zero => omega
  | succ t ih =>
    intro nsr _
    by_cases h : hw.sr nsr = 0 ∧ t ≠ 0
    · have := ih (nsr + 1) (by omega)
      simp only [rng_wait, if_pos h]
      omega
    · simp only [rng_wait, if_neg h]
      omega

theorem rng_poll_evs (hw : Hw) (w : Bool) (nsr : Nat) :
    ∀ e ∈ (rng_poll hw w nsr).2.2, ∃ v, e = Ev.readSR v := by
  intro e he
  by_cases h : hw.sr nsr = 0 ∧ w = true
  · simp only [rng_poll, if_pos h, List.mem_cons] at he
    rcases he with he | he
    · exact ⟨_, he⟩
    · exact rng_wait_evs hw RNG_TIMEOUT (nsr + 1) e he
  · simp only [rng_poll, if_neg h, List.mem_singleton] at he
    exact ⟨_, he⟩

theorem rng_loop_step (hw : Hw) (w : Bool) (m off nsr ndr rv : Nat) :
    rng_loop hw w (m + 5) off nsr ndr rv =
      (if (rng_poll hw w nsr).1 &&& (RNG_SR_SEIS ||| RNG_SR_CEIS) ≠ 0 then
        { retval := rv, nsr := (rng_poll hw w nsr).2.1, ndr := ndr,
          evs := (rng_poll hw w nsr).2.2, drObs := [], writes := [] }
      else if (rng_poll hw w nsr).1 = 0 then
        { retval := rv, nsr := (rng_poll hw w nsr).2.1, ndr := ndr,
          evs := (rng_poll hw w nsr).2.2, drObs := [], writes := [] }
      else
        { retval := (rng_loop hw w (m + 1) (off + 4) (rng_poll hw w nsr).2.1 (ndr + 1) (rv + 4)).retval,
          nsr := (rng_loop hw w (m + 1) (off + 4) (rng_poll hw w nsr).2.1 (ndr + 1) (rv + 4)).nsr,
          ndr := (rng_loop hw w (m + 1) (off + 4) (rng_poll hw w nsr).2.1 (ndr + 1) (rv + 4)).ndr,
          evs := (rng_poll hw w nsr).2.2 ++
            (Ev.readDR (hw.dr ndr) :: Ev.bufWrite off (hw.dr ndr) ::
              (rng_loop hw w (m + 1) (off + 4) (rng_poll hw w nsr).2.1 (ndr + 1) (rv + 4)).evs),
          drObs := ((rng_poll hw w nsr).1, hw.dr ndr) ::
            (rng_loop hw w (m + 1) (off + 4) (rng_poll hw w nsr).2.1 (ndr + 1) (rv + 4)).drObs,
          writes := (off, hw.dr ndr) ::
            (rng_loop hw w (m + 1) (off + 4) (rng_poll hw w nsr).2.1 (ndr + 1) (rv + 4)).writes }) := rfl

theorem rng_loop_base (hw : Hw) (w : Bool) (off nsr ndr rv : Nat) {m : Nat} (h : m ≤ 4) :
    rng_loop hw w m off nsr ndr rv =
      { retval := rv, nsr := nsr, ndr := ndr, evs := [], drObs := [], writes := [] } := by
  interval_cases m <;> rfl

/-- Combined invariant of the drain loop: buffer writes go to consecutive
4-byte offsets starting at `off`; the number of words written is bounded
by the remaining byte budget; every data-register read was decided by a
nonzero, error-free status snapshot; the loop performs only status reads,
data reads and buffer writes. -/
theorem rng_loop_spec (hw : Hw) (w : Bool) (m off nsr ndr rv : Nat) :
    (rng_loop hw w m off nsr ndr rv).writes.map Prod.fst =
        offsets off (rng_loop hw w m off nsr ndr rv).writes.length ∧
    ((rng_loop hw w m off nsr ndr rv).writes.length = 0 ∨
        4 * (rng_loop hw w m off nsr ndr rv).writes.length < m) ∧
    (∀ p ∈ (rng_loop hw w m off nsr ndr rv).drObs,
        p.1 ≠ 0 ∧ p.1 &&& (RNG_SR_SEIS ||| RNG_SR_CEIS) = 0) ∧
    (∀ e ∈ (rng_loop hw w m off nsr ndr rv).evs,
        (∃ v, e = Ev.readSR v) ∨ (∃ v, e = Ev.readDR v) ∨
          ∃ o v, e = Ev.bufWrite o v) := by
  induction m, off, nsr, ndr, rv using rng_loop.induct hw w with
  | case1 m off nsr ndr rv p h =>
    have hc : (rng_poll hw w nsr).1 &&& (RNG_SR_SEIS ||| RNG_SR_CEIS) ≠ 0 := h
    rw [show m.succ.succ.succ.succ.succ = m + 5 from rfl, rng_loop_step, if_pos hc]
    exact ⟨rfl, Or.inl rfl, by simp, fun e he => Or.inl (rng_poll_evs hw w nsr e he)⟩
  | case2 m off nsr ndr rv p h h0 =>
    have hc : ¬(rng_poll hw w nsr).1 &&& (RNG_SR_SEIS ||| RNG_SR_CEIS) ≠ 0 := h
    have hc0 : (rng_poll hw w nsr).1 = 0 := h0
    rw [show m.succ.succ.succ.succ.succ = m + 5 from rfl, rng_loop_step, if_neg hc, if_pos hc0]
    exact ⟨rfl, Or.inl rfl, by simp, fun e he => Or.inl (rng_poll_evs hw w nsr e he)⟩
  | case3 m off nsr ndr rv p h h0 ih =>
    have hc : ¬(rng_poll hw w nsr).1 &&& (RNG_SR_SEIS ||| RNG_SR_CEIS) ≠ 0 := h
    have hc0 : ¬(rng_poll hw w nsr).1 = 0 := h0
    rw [show m.succ.succ.succ.succ.succ = m + 5 from rfl, rng_loop_step, if_neg hc, if_neg hc0]
    rw [show p = rng_poll hw w nsr from rfl] at ih
    obtain ⟨ih1, ih2, ih3, ih4⟩ := ih
    refine ⟨?_, ?_, ?_, ?_⟩
    · simp only [List.map_cons, List.length_cons, offsets]
      exact congrArg (List.cons off) ih1
    · simp only [List.length_cons]
      right
      omega
    · intro q hq
      simp only [List.mem_cons] at hq
      rcases hq with rfl | hq
      · exact ⟨hc0, not_not.mp hc⟩
      · exact ih3 q hq
    · intro e he
      simp only [List.mem_append, List.mem_cons] at he
      rcases he with he | rfl | rfl | he
      · exact Or.inl (rng_poll_evs hw w nsr e he)
      · exact Or.inr (Or.inl ⟨_, rfl⟩)
      · exact Or.inr (Or.inr ⟨_, _, rfl⟩)
      · exact ih4 e he
  | case4 t x nsr ndr rv h =>
    rw [rng_loop_base hw w x nsr ndr rv (by by_contra hc; exact h (t - 5) (by omega))]
    exact ⟨rfl, Or.inl rfl, by simp, by simp⟩

theorem testBit_rngen (i : Nat) : RNG_CR_RNGEN.testBit i = decide (i = 2) := by
  rcases Nat.lt_or_ge i 3 with h | h
  · interval_cases i <;> decide
  · rw [Nat.testBit_eq_false_of_lt
      (lt_of_lt_of_le (by decide) (Nat.pow_le_pow_right (by norm_num) h))]
    have h2 : i ≠ 2 := by omega
    simp [h2]

theorem testBit_errmask (i : Nat) :
    RNG_SR_ERRMASK.testBit i =
      (decide (i < 32) && !decide (i = 5) && !decide (i = 6)) := by
  rcases Nat.lt_or_ge i 32 with h | h
  · interval_cases i <;> decide
  · rw [Nat.testBit_eq_false_of_lt
      (lt_of_lt_of_le (by decide) (Nat.pow_le_pow_right (by norm_num) h))]
    have h32 : ¬i < 32 := by omega
    simp [h32]

/-- C1: every stm32_rng_read call, whatever the hardware does, ends by
writing the control register back to the exact value read in the acquire
step and then disabling the clock; nothing in between touches the control
register or the clock. -/
theorem C1_release_restores_cr_then_disables_clk (hw : Hw) (cr0 m : Nat) (w : Bool) :
    ∃ mid, (stm32_rng_read hw cr0 m w).evs =
        Ev.clkEnable :: Ev.readCR cr0 :: Ev.writeCR (cr0 ||| RNG_CR_RNGEN) ::
          (mid ++ [Ev.writeCR cr0, Ev.clkDisable]) ∧
      ∀ e ∈ mid, (∃ v, e = Ev.readSR v) ∨ (∃ v, e = Ev.readDR v) ∨
        ∃ o v, e = Ev.bufWrite o v :=
  ⟨(rng_loop hw w m 0 0 0 0).evs, rfl, (rng_loop_spec hw w m 0 0 0 0).2.2.2⟩

/-- C1 witness: the release suffix at a concrete input. -/
theorem C1_witness :
    ∃ mid, (stm32_rng_read hwBitOne 3 8 false).evs =
        Ev.clkEnable :: Ev.readCR 3 :: Ev.writeCR (3 ||| RNG_CR_RNGEN) ::
          (mid ++ [Ev.writeCR 3, Ev.clkDisable]) ∧
      ∀ e ∈ mid, (∃ v, e = Ev.readSR v) ∨ (∃ v, e = Ev.readDR v) ∨
        ∃ o v, e = Ev.bufWrite o v :=
  C1_release_restores_cr_then_disables_clk hwBitOne 3 8 false

/-- C2: the result of stm32_rng_read follows the three-case policy: a
positive accumulated byte count is returned as is; a zero count returns 0
in non-blocking mode and -EIO in blocking mode. -/
theorem C2_result_policy (hw : Hw) (cr0 m : Nat) (w : Bool) :
    (stm32_rng_read hw cr0 m w).ret =
      if 0 < (stm32_rng_read hw cr0 m w).retval
        then ((stm32_rng_read hw cr0 m w).retval : Int)
      else if w = true then -(eioVal : Int) else 0 := by
  by_cases h : (rng_loop hw w m 0 0 0 0).retval = 0
  · cases w <;> simp [stm32_rng_read, h]
  · cases w <;> simp [stm32_rng_read, h, Nat.pos_of_ne_zero h]

/-- C3: the code under test diverges from the claim: with max = 4,
wait = true and data ready on the first poll, the loop guard
`max > sizeof(u32)` is already false, so the call reads no data word,
writes nothing, and returns -EIO instead of 4. -/
theorem C3_fill4_returns_eio_not_4 :
    (stm32_rng_read hwReady 0 4 true).ret = -(eioVal : Int) ∧
    (stm32_rng_read hwReady 0 4 true).writes = [] ∧
    (stm32_rng_read hwReady 0 4 true).ndr = 0 ∧
    (stm32_rng_read hwReady 0 4 true).nsr = 0 := by
  decide

/-- C4: for every requested length m and every hardware behavior, the
buffer writes are whole 4-byte words at consecutive offsets 0, 4, 8, ...,
at most floor(m/4)*4 bytes are written, and every written byte lies below
offset floor(m/4)*4. -/
theorem C4_write_bounds (hw : Hw) (cr0 m : Nat) (w : Bool) :
    (stm32_rng_read hw cr0 m w).writes.map Prod.fst =
      (List.range (stm32_rng_read hw cr0 m w).writes.length).map (fun i => 4 * i) ∧
    4 * (stm32_rng_read hw cr0 m w).writes.length ≤ m / 4 * 4 ∧
    ∀ q ∈ (stm32_rng_read hw cr0 m w).writes, q.1 + 4 ≤ m / 4 * 4 := by
  obtain ⟨h1, h2, -, -⟩ := rng_loop_spec hw w m 0 0 0 0
  have hwr : (stm32_rng_read hw cr0 m w).writes = (rng_loop hw w m 0 0 0 0).writes := rfl
  have hlen : 4 * (rng_loop hw w m 0 0 0 0).writes.length ≤ m / 4 * 4 := by omega
  have hmap : (rng_loop hw w m 0 0 0 0).writes.map Prod.fst =
      (List.range (rng_loop hw w m 0 0 0 0).writes.length).map (fun i => 4 * i) := by
    rw [h1, offsets_eq_range]
    exact List.map_congr_left fun a _ => by omega
  refine ⟨by rw [hwr, hmap], by rw [hwr]; exact hlen, ?_⟩
  intro q hq
  rw [hwr] at hq
  have : q.1 ∈ (rng_loop hw w m 0 0 0 0).writes.map Prod.fst := List.mem_map_of_mem Prod.fst hq
  rw [hmap] at this
  obtain ⟨i, hi, hqi⟩ := List.mem_map.mp this
  rw [List.mem_range] at hi
  omega

/-- C4 witness: the bounds at a concrete input. -/
theorem C4_witness :
    (stm32_rng_read hwSeedErr 0 16 true).writes.map Prod.fst =
      (List.range (stm32_rng_read hwSeedErr 0 16 true).writes.length).map (fun i => 4 * i) ∧
    4 * (stm32_rng_read hwSeedErr 0 16 true).writes.length ≤ 16 / 4 * 4 ∧
    ∀ q ∈ (stm32_rng_read hwSeedErr 0 16 true).writes, q.1 + 4 ≤ 16 / 4 * 4 :=
  C4_write_bounds hwSeedErr 0 16 true

/-- C5: an iteration whose deciding status snapshot has the seed- or
clock-error bit set terminates the drain loop at once with the bytes
accumulated so far and performs no data-register read on that snapshot; no
data-register read is ever decided by an error snapshot; concretely, with
two ready words followed by a latched seed error, fill(16, blocking)
returns 8, performs exactly two data reads, and the two words are returned
as partial success. -/
theorem C5_error_snapshot_stops_drain (hw : Hw) (w : Bool) (cr0 m off nsr ndr rv : Nat)
    (herr : (rng_poll hw w nsr).1 &&& (RNG_SR_SEIS ||| RNG_SR_CEIS) ≠ 0) :
    rng_loop hw w (m + 5) off nsr ndr rv =
      { retval := rv, nsr := (rng_poll hw w nsr).2.1, ndr := ndr,
        evs := (rng_poll hw w nsr).2.2, drObs := [], writes := [] } ∧
    (∀ q ∈ (stm32_rng_read hw cr0 m w).drObs,
        q.1 &&& (RNG_SR_SEIS ||| RNG_SR_CEIS) = 0) ∧
    (stm32_rng_read hwSeedErr 0 16 true).ret = 8 ∧
    (stm32_rng_read hwSeedErr 0 16 true).ndr = 2 ∧
    (stm32_rng_read hwSeedErr 0 16 true).writes =
      [(0, hwSeedErr.dr 0), (4, hwSeedErr.dr 1)] :=
  ⟨by rw [rng_loop_step, if_pos herr],
    fun q hq => ((rng_loop_spec hw w m 0 0 0 0).2.2.1 q hq).2,
    by decide, by decide, by decide⟩

/-- C5 witness: the third loop iteration of the seed-error run (8 bytes
already accumulated, status read count 2, data read count 2) sees the
seed-error snapshot and stops with the accumulated state. -/
theorem C5_witness :
    rng_loop hwSeedErr true (11 + 5) 8 2 2 8 =
      { retval := 8, nsr := (rng_poll hwSeedErr true 2).2.1, ndr := 2,
        evs := (rng_poll hwSeedErr true 2).2.2, drObs := [], writes := [] } ∧
    (∀ q ∈ (stm32_rng_read hwSeedErr 0 11 true).drObs,
        q.1 &&& (RNG_SR_SEIS ||| RNG_SR_CEIS) = 0) ∧
    (stm32_rng_read hwSeedErr 0 16 true).ret = 8 ∧
    (stm32_rng_read hwSeedErr 0 16 true).ndr = 2 ∧
    (stm32_rng_read hwSeedErr 0 16 true).writes =
      [(0, hwSeedErr.dr 0), (4, hwSeedErr.dr 1)] :=
  C5_error_snapshot_stops_drain hwSeedErr true 0 11 8 2 2 8 (by decide)

set_option maxRecDepth 8000 in
/-- C6: the busy-wait budget is the fixed constant 500; one busy-wait
performs at most RNG_TIMEOUT status reads; against a peripheral that never
reports data ready, a blocking fill of 8 bytes stops after the budget
(1 + RNG_TIMEOUT status reads in total) and returns -EIO with 0 bytes
written. -/
theorem C6_bounded_timeout (hw : Hw) (nsr : Nat) :
    RNG_TIMEOUT = 500 ∧
    (rng_wait hw nsr RNG_TIMEOUT).2.1 ≤ nsr + RNG_TIMEOUT ∧
    (stm32_rng_read hwNever 0 8 true).ret = -(eioVal : Int) ∧
    (stm32_rng_read hwNever 0 8 true).retval = 0 ∧
    (stm32_rng_read hwNever 0 8 true).writes = [] ∧
    (stm32_rng_read hwNever 0 8 true).nsr = 1 + RNG_TIMEOUT :=
  ⟨rfl, rng_wait_nsr_le hw RNG_TIMEOUT nsr (by decide),
    by decide, by decide, by decide, by decide⟩

/-- C7 counterexample: a status snapshot of 2 (data-ready bit clear, no
error bits) still leads to a data-register read, so the claim that data is
read only after a snapshot with data-ready set is false on this code. -/
theorem C7_counterexample :
    (stm32_rng_read hwBitOne 0 8 false).drObs = [(2, 7)] ∧
    (2 : Nat) &&& RNG_SR_DRDY = 0 := by
  decide

/-- C7 amended: the code reads the data register only on iterations whose
deciding status snapshot was nonzero and had neither the seed-error nor
the clock-error bit set (rather than testing the data-ready bit). -/
theorem C7_amended_read_guard (hw : Hw) (cr0 m : Nat) (w : Bool) :
    ∀ q ∈ (stm32_rng_read hw cr0 m w).drObs,
      q.1 ≠ 0 ∧ q.1 &&& (RNG_SR_SEIS ||| RNG_SR_CEIS) = 0 :=
  (rng_loop_spec hw w m 0 0 0 0).2.2.1

/-- C7 witness: the amended guard at a concrete input. -/
theorem C7_witness :
    ((2 : Nat), (7 : Nat)).1 ≠ 0 ∧
    ((2 : Nat), (7 : Nat)).1 &&& (RNG_SR_SEIS ||| RNG_SR_CEIS) = 0 :=
  C7_amended_read_guard hwBitOne 0 8 false (2, 7) (by decide)

/-- C8: the acquire step is a read-modify-write: the value written to the
control register is the value just read OR-ed with the generator-enable
bit, so bit 2 is set and every other bit is exactly the bit read. -/
theorem C8_acquire_rmw (hw : Hw) (cr0 m : Nat) (w : Bool) :
    (∃ t, (stm32_rng_read hw cr0 m w).evs =
      Ev.clkEnable :: Ev.readCR cr0 :: Ev.writeCR (cr0 ||| RNG_CR_RNGEN) :: t) ∧
    (∀ i, (cr0 ||| RNG_CR_RNGEN).testBit i = (cr0.testBit i || decide (i = 2))) := by
  refine ⟨⟨_, rfl⟩, fun i => ?_⟩
  rw [Nat.testBit_lor, testBit_rngen]

/-- C9: a successful initialize followed immediately by shutdown restores
the clock prepare count: unprepare exactly undoes prepare, so starting
unprepared the clock does not end up prepared. -/
theorem C9_init_shutdown_roundtrip (sr0 n : Nat) :
    stm32_rng_cleanup (stm32_rng_init 0 sr0 n).clkPrepares = n ∧
    stm32_rng_cleanup (stm32_rng_init 0 sr0 0).clkPrepares = 0 := by
  constructor <;> simp [stm32_rng_init, stm32_rng_cleanup]

/-- C10: on success, initialize performs exactly one status-register read
and one status-register write; the written value keeps every bit of the
value read except bits 5 and 6 (the two error latches), which are cleared;
when clock preparation fails the error is returned with no register access
and no clock state change. -/
theorem C10_init_frame (sr0 n : Nat) (e : Int) (h32 : sr0 < 2 ^ 32) (he : e ≠ 0) :
    ((stm32_rng_init 0 sr0 n).ret = 0 ∧
      (stm32_rng_init 0 sr0 n).regEvs =
        [Ev.readSR sr0, Ev.writeSR (sr0 &&& RNG_SR_ERRMASK)] ∧
      ∀ i, (sr0 &&& RNG_SR_ERRMASK).testBit i =
        (sr0.testBit i && !decide (i = 5) && !decide (i = 6))) ∧
    ((stm32_rng_init e sr0 n).ret = e ∧
      (stm32_rng_init e sr0 n).regEvs = [] ∧
      (stm32_rng_init e sr0 n).clkPrepares = n) := by
  refine ⟨⟨by simp [stm32_rng_init], by simp [stm32_rng_init], fun i => ?_⟩,
    by simp [stm32_rng_init, he], by simp [stm32_rng_init, he],
    by simp [stm32_rng_init, he]⟩
  rw [Nat.testBit_land, testBit_errmask]
  rcases Nat.lt_or_ge i 32 with h | h
  · simp [h, Bool.and_assoc]
  · have hz : sr0.testBit i = false := Nat.testBit_eq_false_of_lt
      (lt_of_lt_of_le h32 (Nat.pow_le_pow_right (by norm_num) h))
    simp [hz]

/-- C10 witness: the frame property of initialize at a concrete input
(status value 97 has bits 0, 5 and 6 set; clk_prepare failure -1). -/
theorem C10_witness :
    (((stm32_rng_init 0 97 0).ret = 0 ∧
      (stm32_rng_init 0 97 0).regEvs =
        [Ev.readSR 97, Ev.writeSR (97 &&& RNG_SR_ERRMASK)] ∧
      ∀ i, ((97 : Nat) &&& RNG_SR_ERRMASK).testBit i =
        ((97 : Nat).testBit i && !decide (i = 5) && !decide (i = 6))) ∧
    ((stm32_rng_init (-1) 97 0).ret = -1 ∧
      (stm32_rng_init (-1) 97 0).regEvs = [] ∧
      (stm32_rng_init (-1) 97 0).clkPrepares = 0)) :=
  C10_init_frame 97 0 (-1) (by norm_num) (by norm_num)

end Stm32Rng
